import Mathlib

/-!
Verification of the OAuth2 auth-server core against its specification.

The Go sources are shallowly embedded: pure functions become Lean functions,
the HTTP handlers become functions from an explicit request value to an
explicit response value, the filesystem used by the key-management tool
becomes an association list threaded through the operations, and the
fallible write/remove system calls take an explicit failure oracle.
Machine integers in the source are within range everywhere they are used,
so they are modelled by Nat/Int directly.  RSA signing is modelled as
perfect cryptography: a signature records the signing key's modulus, the
declared algorithm and the signed claims, and verification succeeds exactly
when all three match the verifier's data.  The JWT compact serialisation is
kept abstract (a decoder parameter), since it lives in the external
golang-jwt library, not in this repository.
-/

namespace AuthServer

/-- Decidable equality for `Except`, so that concrete runs of the fallible
operations can be checked by `decide`. -/
instance {ε α : Type} [DecidableEq ε] [DecidableEq α] : DecidableEq (Except ε α) := fun x y =>
  match x, y with
  | .ok a, .ok b =>
    if h : a = b then .isTrue (congrArg Except.ok h)
    else .isFalse (fun hh => h (Except.ok.inj hh))
  | .error a, .error b =>
    if h : a = b then .isTrue (congrArg Except.error h)
    else .isFalse (fun hh => h (Except.error.inj hh))
  | .ok _, .error _ => .isFalse (fun hh => Except.noConfusion hh)
  | .error _, .ok _ => .isFalse (fun hh => Except.noConfusion hh)

/-! ## Byte and string utilities (Go `strings` / `encoding/base64` behaviour) -/

/-- Bytes of an ASCII string, as Go sees a `string` (UTF-8 bytes).  All
credential data in this development is ASCII, where code points and bytes
coincide. -/
def strBytes (s : String) : List Nat :=
  s.toList.map Char.toNat

/-- Go `strings.Split(s, " ")` on the character list of `s`: splits at every
separator, keeping empty fields, and yields `[[]]` for the empty string. -/
def splitOnChar (sep : Char) : List Char → List (List Char)
  | [] => [[]]
  | c :: rest =>
    let r := splitOnChar sep rest
    if c = sep then
      [] :: r
    else
      match r with
      | [] => [[c]]
      | hd :: tl => (c :: hd) :: tl

/-- Go `strings.HasPrefix` on character lists. -/
def startsWithL : List Char → List Char → Bool
  | _, [] => true
  | [], _ :: _ => false
  | c :: cs, p :: ps => if c = p then startsWithL cs ps else false

/-- Value of one character of the standard base64 alphabet
(`encoding/base64.StdEncoding`). -/
def b64Val (c : Char) : Option Nat :=
  let n := c.toNat
  if 65 ≤ n ∧ n ≤ 90 then some (n - 65)
  else if 97 ≤ n ∧ n ≤ 122 then some (n - 97 + 26)
  else if 48 ≤ n ∧ n ≤ 57 then some (n - 48 + 52)
  else if n = 43 then some 62
  else if n = 47 then some 63
  else none

/-- Decoding of padded base64 in four-character quanta, mirroring Go's
`base64.StdEncoding.DecodeString`: the length must be a multiple of four,
`=` padding may occur only at the end (one or two characters), and the
unused low bits before the padding are not required to be zero (Go's
non-strict decoder ignores them). -/
def b64DecodeQuanta : List Char → Option (List Nat)
  | [] => some []
  | c0 :: c1 :: c2 :: c3 :: rest =>
    match b64Val c0, b64Val c1 with
    | some v0, some v1 =>
      if c2 = '=' then
        if c3 = '=' ∧ rest = [] then some [v0 * 4 + v1 / 16] else none
      else
        match b64Val c2 with
        | none => none
        | some v2 =>
          if c3 = '=' then
            if rest = [] then some [v0 * 4 + v1 / 16, v1 % 16 * 16 + v2 / 4] else none
          else
            match b64Val c3 with
            | none => none
            | some v3 =>
              match b64DecodeQuanta rest with
              | none => none
              | some tl =>
                some ((v0 * 4 + v1 / 16) :: (v1 % 16 * 16 + v2 / 4) :: (v2 % 4 * 64 + v3) :: tl)
    | _, _ => none
  | _ => none

/-- Go `base64.StdEncoding.DecodeString`, which first discards carriage
returns and newlines. -/
def base64Decode (cs : List Char) : Option (List Nat) :=
  b64DecodeQuanta (cs.filter (fun c => !(c == '\r' || c == '\n')))

/-! ## Credential Validator (`internal/auth/basic.go`) -/

/-- The five error values declared in `basic.go`.  `invalidAuthScheme`
(`ErrInvalidAuthScheme`) is declared in the source but never returned by
`ParseBasicAuth`. -/
inductive AuthErr
  | missingHeader
  | invalidFormat
  | invalidBase64
  | invalidAuthScheme
  | invalidCredentials
deriving DecidableEq

/-- Go `strings.SplitN(string(decoded), ":", 2)` restricted to the shape the
caller checks: `none` when the decoded bytes contain no `:` (byte 58),
otherwise the bytes before the first `:` and everything after it. -/
def splitCreds : List Nat → Option (List Nat × List Nat)
  | [] => none
  | 58 :: rest => some ([], rest)
  | b :: rest =>
    match splitCreds rest with
    | none => none
    | some (u, p) => some (b :: u, p)

/-- Lookup in the user pool by decoded byte key.  Go's `map[string]string`
lookup compares raw bytes; pools model maps, so their keys are distinct. -/
def poolFind (pool : List (String × String)) (user : List Nat) : Option (String × String) :=
  match pool with
  | [] => none
  | (k, v) :: rest => if strBytes k = user then some (k, v) else poolFind rest user

/-- `BasicAuth.ParseBasicAuth` from `internal/auth/basic.go`.  On success the
Go method stores the decoded client id and secret in the receiver; here they
are returned.  The bytes of the stored pair equal the matched pool entry, so
the pool entry itself is returned. -/
def ParseBasicAuth (pool : List (String × String)) (authHeader : String) :
    Except AuthErr (String × String) :=
  if authHeader = "" then .error .missingHeader
  else
    match splitOnChar ' ' authHeader.toList with
    | [p0, p1] =>
      if p0 = "Basic".toList then
        match base64Decode p1 with
        | none => .error .invalidBase64
        | some decoded =>
          match splitCreds decoded with
          | none => .error .invalidFormat
          | some (user, pass) =>
            match poolFind pool user with
            | none => .error .invalidCredentials
            | some (k, v) => if strBytes v = pass then .ok (k, v) else .error .invalidCredentials
      else .error .invalidFormat
    | _ => .error .invalidFormat

/-- The credential store built by `userpool.Default()`. -/
def DefaultUserPool : List (String × String) := [("sho", "test123")]

/-! ## Token model (`internal/token/generator.go`, golang-jwt v5 semantics) -/

/-- The signing methods a JWT header can declare.  `RS256`, `RS384` and
`RS512` are the instances of Go type `*jwt.SigningMethodRSA`; the others
(HMAC, ECDSA, RSA-PSS, "none") are distinct Go types and fail the type
assertion in `validateToken`'s key function. -/
inductive Alg
  | RS256
  | RS384
  | RS512
  | PS256
  | HS256
  | ES256
  | algNone
deriving DecidableEq

/-- Whether the declared method is of Go type `*jwt.SigningMethodRSA`. -/
def Alg.isRSAMethod : Alg → Bool
  | .RS256 | .RS384 | .RS512 => true
  | _ => false

/-- `jwt.RegisteredClaims` as the generator populates them, with times as
Unix seconds (`Unix()` values). -/
structure RegisteredClaims where
  iss : String
  sub : String
  iat : Int
  nbf : Int
  exp : Int
deriving DecidableEq

/-- An RSA private key: its public modulus, and whether
`(*rsa.PrivateKey).Validate()` passes its internal consistency check. -/
structure RSAPrivateKey where
  modulus : Nat
  valid : Bool
deriving DecidableEq

/-- Perfect-cryptography model of an RSA signature over a JWT's signing
string (header plus claims): it records the signing key's modulus, the
algorithm named in the signed header, and the signed claims. -/
structure Sig where
  modulus : Nat
  alg : Alg
  payload : RegisteredClaims
deriving DecidableEq

/-- A decoded JWT: declared header algorithm, claims, and signature.
Re-encoding a token with a different header algorithm changes `alg` but
leaves `sig` (the bytes of the original signature) unchanged. -/
structure Token where
  alg : Alg
  claims : RegisteredClaims
  sig : Sig
deriving DecidableEq

/-- Signing: SHA-256 digest plus RSA over header and claims. -/
def signRSA (k : RSAPrivateKey) (a : Alg) (c : RegisteredClaims) : Sig :=
  ⟨k.modulus, a, c⟩

/-- The failures of `Generator.GenerateToken`:`ErrNilPrivateKey`, a failed
`Validate()`, and `ErrEmptyUsername`. -/
inductive GenError
  | nilPrivateKey
  | invalidPrivateKey
  | emptyUsername
deriving DecidableEq

/-- `Generator.GenerateToken` from `internal/token/generator.go`, with the
call to `time.Now()` made an explicit `now` parameter (Unix seconds).  The
claims are issuer `"oauth2-server"`, subject the username, issued-at and
not-before both `now`, and expiry one hour later; the token is signed with
RS256 under the generator's private key. -/
def GenerateToken (privateKey : Option RSAPrivateKey) (username : String) (now : Int) :
    Except GenError Token :=
  match privateKey with
  | none => .error .nilPrivateKey
  | some k =>
    if k.valid = false then .error .invalidPrivateKey
    else if username = "" then .error .emptyUsername
    else
      let claims : RegisteredClaims := ⟨"oauth2-server", username, now, now, now + 3600⟩
      .ok ⟨Alg.RS256, claims, signRSA k Alg.RS256 claims⟩

/-! ## Token Verifier / Introspector (`server/internal/token/introspection.go`) -/

/-- The error classes `jwt.ParseWithClaims` can surface through
`validateToken`: an unparseable compact serialisation, a key-function
refusal (our key function returns `jwt.ErrSignatureInvalid` for any method
that is not `*jwt.SigningMethodRSA`), a signature mismatch, and the two
temporal-claim failures. -/
inductive JwtError
  | malformed
  | unverifiable
  | signatureInvalid
  | tokenExpired
  | tokenNotYetValid
deriving DecidableEq

/-- A parsed token as golang-jwt hands it back: the token plus its `Valid`
flag (set only when every check passed). -/
structure ParsedToken where
  token : Token
  valid : Bool
deriving DecidableEq

/-- The checks `jwt.ParseWithClaims` performs on an already-decoded token
for `validateToken`'s key function: the declared method must be of Go type
`*jwt.SigningMethodRSA` (checked before the key pair's public key is ever
returned), then the signature is verified against the public key, then the
registered claims are validated at the current time (`exp` strictly in the
future, `nbf` not in the future; golang-jwt v5 defaults, zero leeway). -/
def validateTokenP (t : Token) (pubModulus : Nat) (now : Int) :
    Except JwtError ParsedToken :=
  if t.alg.isRSAMethod = false then .error .unverifiable
  else if ¬t.sig = Sig.mk pubModulus t.alg t.claims then .error .signatureInvalid
  else if ¬now < t.claims.exp then .error .tokenExpired
  else if ¬t.claims.nbf ≤ now then .error .tokenNotYetValid
  else .ok ⟨t, true⟩

/-- `validateToken` on the wire token string: the compact-serialisation
decoder of the golang-jwt library is abstract here (`decode`), followed by
the checks of `validateTokenP`. -/
def validateToken (decode : String → Option Token) (s : String) (pubModulus : Nat)
    (now : Int) : Except JwtError ParsedToken :=
  match decode s with
  | none => .error .malformed
  | some t => validateTokenP t pubModulus now

/-- `IntrospectionResponse` from `introspection.go`, with the zero values of
the Go struct as defaults. -/
structure IntrospectionResponse where
  active : Bool
  scope : String := ""
  clientID : String := ""
  username : String := ""
  tokenType : String := ""
  exp : Int := 0
  iat : Int := 0
  nbf : Int := 0
  sub : String := ""
  aud : String := ""
  iss : String := ""
  jti : String := ""
deriving DecidableEq

/-- `introspectToken`: an invalid parsed token yields the inactive response;
a valid one carries the claim fields over.  (The claims type assertion in
the source always succeeds, since parsing was invoked with
`*jwt.RegisteredClaims`.) -/
def introspectToken (p : ParsedToken) : IntrospectionResponse :=
  if p.valid = false then { active := false }
  else
    { active := true
      tokenType := "Bearer"
      sub := p.token.claims.sub
      iss := p.token.claims.iss
      exp := p.token.claims.exp
      iat := p.token.claims.iat
      nbf := p.token.claims.nbf }

/-- The introspection outcome the handler computes for an extracted token:
any `validateToken` error becomes the inactive response (the body written by
`writeIntrospectionError` for message "Token validation failed"), success is
passed to `introspectToken`. -/
def introspectOutcome (t : Token) (pubModulus : Nat) (now : Int) : IntrospectionResponse :=
  match validateTokenP t pubModulus now with
  | .error _ => { active := false }
  | .ok p => introspectToken p

/-! ## HTTP layer: JSON rendering and the two handlers -/

/-- JSON scalar values, enough for the response bodies of this server. -/
inductive Json
  | jsStr (v : String)
  | jsInt (v : Int)
  | jsBool (v : Bool)
deriving DecidableEq

/-- An `omitempty` string field: present only when non-empty. -/
def optStr (name : String) (v : String) : List (String × Json) :=
  if v = "" then [] else [(name, .jsStr v)]

/-- An `omitempty` integer field: present only when non-zero. -/
def optInt (name : String) (v : Int) : List (String × Json) :=
  if v = 0 then [] else [(name, .jsInt v)]

/-- `encoding/json` marshalling of `IntrospectionResponse`: `active` always,
every other field tagged `omitempty`, in struct order. -/
def encodeIntrospection (r : IntrospectionResponse) : List (String × Json) :=
  ("active", .jsBool r.active) ::
    (optStr "scope" r.scope ++ optStr "client_id" r.clientID ++
      optStr "username" r.username ++ optStr "token_type" r.tokenType ++
      optInt "exp" r.exp ++ optInt "iat" r.iat ++ optInt "nbf" r.nbf ++
      optStr "sub" r.sub ++ optStr "aud" r.aud ++ optStr "iss" r.iss ++
      optStr "jti" r.jti)

/-- The OAuth2-shaped error body (`ErrorResponse` structs in both
packages): `error`, and `error_description` when non-empty. -/
structure ErrResp where
  error : String
  errorDescription : String
deriving DecidableEq

/-- `encoding/json` marshalling of `ErrorResponse` (`error_description` is
`omitempty` in the introspection file's struct; the basic-auth file's
struct always carries a non-empty description). -/
def encodeErrResp (e : ErrResp) : List (String × Json) :=
  ("error", .jsStr e.error) :: optStr "error_description" e.errorDescription

/-- A response body: either plain text written by `http.Error` (its
trailing newline and text/plain content type are elided) or a JSON
object. -/
inductive RespBody
  | text (msg : String)
  | json (fields : List (String × Json))
deriving DecidableEq

/-- An HTTP response: status code and body. -/
structure HttpResponse where
  status : Nat
  body : RespBody
deriving DecidableEq

/-- An inbound introspection request: its method, the value of the form
field `token` (`r.FormValue("token")`, `""` when absent), and the
`Authorization` header (`""` when absent). -/
structure IntroRequest where
  method : String
  formToken : String
  authHeader : String

/-- `strings.TrimPrefix(auth, "Bearer ")` in the branch where the header is
known to carry the Bearer scheme: drop the seven characters of the
scheme tag. -/
def bearerToken (auth : String) : String :=
  String.mk (auth.toList.drop 7)

/-- `extractTokenFromRequest`: the form field first; otherwise a
Bearer-tagged `Authorization` header; otherwise the empty string. -/
def extractTokenFromRequest (r : IntroRequest) : String :=
  if r.formToken ≠ "" then r.formToken
  else if r.authHeader ≠ "" ∧ startsWithL r.authHeader.toList "Bearer ".toList then
    bearerToken r.authHeader
  else ""

/-- `writeIntrospectionError`: the magic message "Token validation failed"
selects the RFC 7662 inactive body; every other message becomes an
OAuth2-shaped error body. -/
def writeIntrospectionError (status : Nat) (message : String) : HttpResponse :=
  if message = "Token validation failed" then
    ⟨status, .json (encodeIntrospection { active := false })⟩
  else
    ⟨status, .json (encodeErrResp ⟨message, ""⟩)⟩

/-- `HandleIntrospection`: method check (405), token extraction (400 when
nothing is extractable), then validation — whose every failure is written
as a 200 with the inactive body — and finally the introspection result as a
200.  (The response-encoding failure path in the source cannot occur in
this model.) -/
def HandleIntrospection (decode : String → Option Token) (pubModulus : Nat) (now : Int)
    (r : IntroRequest) : HttpResponse :=
  if r.method ≠ "POST" then ⟨405, .text "Method not allowed"⟩
  else
    let tokenString := extractTokenFromRequest r
    if tokenString = "" then writeIntrospectionError 400 "No token provided"
    else
      match validateToken decode tokenString pubModulus now with
      | .error _ => writeIntrospectionError 200 "Token validation failed"
      | .ok parsed => ⟨200, .json (encodeIntrospection (introspectToken parsed))⟩

/-! ## Token issuance endpoint (`server/internal/auth/handler.go`,
`server/internal/request/validation.go`) -/

/-- An inbound token-issuance request. -/
structure TokenRequest where
  method : String
  authHeader : String

/-- The body of a token-endpoint response: `http.Error` text, an
OAuth2-shaped JSON error, or the JSON `TokenResponse` whose `access_token`
is the signed token (its compact serialisation stays abstract). -/
inductive TokBody
  | text (msg : String)
  | errJson (e : ErrResp)
  | tokJson (accessToken : Token) (tokenType : String) (expiresIn : Int)
deriving DecidableEq

/-- A token-endpoint HTTP response. -/
structure TokenHttpResponse where
  status : Nat
  body : TokBody
deriving DecidableEq

/-- `GetErrorResponse` from `basic.go`: every branch, the default (which is
the only one `ErrInvalidAuthScheme` can reach) included, carries the error
code `invalid_client`. -/
def GetErrorResponse : AuthErr → ErrResp
  | .missingHeader => ⟨"invalid_client", "Authorization header required"⟩
  | .invalidFormat => ⟨"invalid_client", "Invalid authorization header format"⟩
  | .invalidBase64 => ⟨"invalid_client", "Invalid credentials"⟩
  | .invalidCredentials => ⟨"invalid_client", "Invalid username or password"⟩
  | .invalidAuthScheme => ⟨"invalid_client", "Authentication failed"⟩

/-- `HandleToken`: method check, then `request.ValidateAuthorization` with
scheme `"Basic"` (plain-text 401 via `http.Error` when the header is absent
or carries another scheme), then `ParseBasicAuth` (JSON 401 via
`GetErrorResponse` on failure), then token generation (500 on failure) and
the 200 `TokenResponse`. -/
def HandleToken (pool : List (String × String)) (key : Option RSAPrivateKey) (now : Int)
    (r : TokenRequest) : TokenHttpResponse :=
  if r.method ≠ "POST" then ⟨405, .text ("Method not allowed: " ++ r.method)⟩
  else if r.authHeader = "" then ⟨401, .text "Authorization header required"⟩
  else if startsWithL r.authHeader.toList "Basic ".toList = false then
    ⟨401, .text ("Invalid authorization scheme: " ++ r.authHeader)⟩
  else
    match ParseBasicAuth pool r.authHeader with
    | .error e => ⟨401, .errJson (GetErrorResponse e)⟩
    | .ok (username, _) =>
      match GenerateToken key username now with
      | .error _ => ⟨500, .errJson ⟨"server_error", "Failed to generate token"⟩⟩
      | .ok tok => ⟨200, .tokJson tok "Bearer" 3600⟩

/-! ## Key Provider (`keytool/internal/rsa`, the package of
`Manager.GenerateKeyPair` / `SaveKeyPair` / `DeleteKeyPair`) -/

/-- Big-endian base-256 digits of a natural number, Go's
`(*big.Int).Bytes()`: empty for zero, no leading zero byte otherwise.
Structural fuel recursion (the value itself bounds the number of digits), so
concrete instances reduce in the kernel. -/
def natBytesAux : Nat → Nat → List Nat
  | 0, _ => []
  | fuel + 1, n => if n = 0 then [] else natBytesAux fuel (n / 256) ++ [n % 256]

/-- `(*big.Int).Bytes()`. -/
def natBytes (n : Nat) : List Nat :=
  natBytesAux n n

/-- One lowercase hexadecimal digit. -/
def hexDigitChar (n : Nat) : Char :=
  if n < 10 then Char.ofNat (48 + n) else Char.ofNat (87 + n)

/-- Go `fmt.Sprintf("%x", bs)` for a byte slice: two lowercase hex digits
per byte. -/
def bytesToHexChars (bs : List Nat) : List Char :=
  bs.flatMap fun b => [hexDigitChar (b / 16), hexDigitChar (b % 16)]

/-- The key id derivation used by the key lifecycle operations:
`fmt.Sprintf("%x", N.Bytes()[:8])`, the hex rendering of the first eight
bytes of the public modulus. -/
def keyIDFromModulus (n : Nat) : String :=
  String.mk (bytesToHexChars ((natBytes n).take 8))

/-- The sentinel error values of the `rsa` key-management package
(`errors.Is` targets). -/
inductive KeySentinel
  | keyGeneration
  | keySave
  | keyLoad
  | invalidPath
  | keyNotFound
  | invalidKeySize
deriving DecidableEq

/-- The concrete errors the three embedded `Manager` methods return, one
constructor per `return` site. -/
inductive KeyToolErr
  | invalidKeySize
  | keyGeneration
  | nilKeyPair
  | nilKeyHalf
  | invalidPrivateKey
  | savePrivateFailed
  | savePublicFailed
  | emptyKeyID
  | privateKeyNotFound
  | publicKeyNotFound
  | removePrivateFailed
  | removePublicFailed
deriving DecidableEq

/-- Which sentinel each error wraps (`fmt.Errorf("%w: ...", sentinel)` or a
direct sentinel return); `none` for the `errors.New` / non-sentinel
wrappings.  `emptyKeyID` is `fmt.Errorf("%w: key ID cannot be empty",
ErrKeyLoad)` in `DeleteKeyPair`. -/
def KeyToolErr.unwrapsTo : KeyToolErr → Option KeySentinel
  | .invalidKeySize => some .invalidKeySize
  | .keyGeneration => some .keyGeneration
  | .emptyKeyID => some .keyLoad
  | .privateKeyNotFound => some .keyNotFound
  | .publicKeyNotFound => some .keyNotFound
  | _ => none

/-- An RSA private key as the key tool sees it: public modulus and the
verdict of `(*rsa.PrivateKey).Validate()`. -/
structure RSAPrivKeyK where
  n : Nat
  validates : Bool
deriving DecidableEq

/-- The key tool's `KeyPair` struct: possibly-nil private key, possibly-nil
public key (its modulus), and the derived `KeyID`. -/
structure KeyPairK where
  privateKey : Option RSAPrivKeyK
  publicKey : Option Nat
  keyID : String
deriving DecidableEq

/-- `Manager.GenerateKeyPair(bits)`: sizes below 2048 are refused with
`ErrInvalidKeySize` before any generation; the randomised
`rsa.GenerateKey` call is an oracle (`rngOk` its success, `generated` the
key it yields, whose modulus has the requested bit length), failing with
`ErrKeyGeneration`; on success the `KeyID` is derived from the modulus. -/
def GenerateKeyPairK (bits : Nat) (rngOk : Bool) (generated : RSAPrivKeyK) :
    Except KeyToolErr KeyPairK :=
  if bits < 2048 then .error .invalidKeySize
  else if rngOk = false then .error .keyGeneration
  else .ok ⟨some generated, some generated.n, keyIDFromModulus generated.n⟩

/-- PEM file contents, identified by what was marshalled into them. -/
inductive PemContent
  | privPem (k : RSAPrivKeyK)
  | pubPem (n : Nat)
deriving DecidableEq

/-- The key directory as an association list: path to (permission bits,
content). -/
abbrev FS := List (String × (Nat × PemContent))

/-- Lookup of a path. -/
def fsLookup : FS → String → Option (Nat × PemContent)
  | [], _ => none
  | (q, f) :: rest, p => if q = p then some f else fsLookup rest p

/-- `os.Remove` (on an existing file). -/
def fsRemove (fs : FS) (p : String) : FS :=
  fs.filter fun qf => !(qf.1 == p)

/-- `os.WriteFile`: replaces the content of an existing file (keeping its
permission bits, as the perm argument applies only on creation) or creates
the file with the given permission bits. -/
def fsWrite (fs : FS) (p : String) (perm : Nat) (c : PemContent) : FS :=
  match fsLookup fs p with
  | some (oldPerm, _) => (p, (oldPerm, c)) :: fsRemove fs p
  | none => (p, (perm, c)) :: fs

/-- `filepath.Join(keysDir, fmt.Sprintf("%s.private.pem", keyID))`. -/
def privPemPath (dir keyID : String) : String :=
  dir ++ "/" ++ keyID ++ ".private.pem"

/-- `filepath.Join(keysDir, fmt.Sprintf("%s.public.pem", keyID))`. -/
def pubPemPath (dir keyID : String) : String :=
  dir ++ "/" ++ keyID ++ ".public.pem"

/-- `Manager.SaveKeyPair`: nil-pair and nil-half checks, the private key's
`Validate()`, then the private PEM is written with permission `0600` and
the public PEM with `0644`; when the public write fails, the
already-written private file is removed again.  `wfail` is the oracle for
`os.WriteFile` failures; the `MkdirAll` call is modelled as succeeding (the
directory exists — the manager created it).  The key id is re-derived from
the public modulus, as in the source. -/
def SaveKeyPairK (wfail : String → Bool) (dir : String) (kp : Option KeyPairK) (fs : FS) :
    FS × Option KeyToolErr :=
  match kp with
  | none => (fs, some .nilKeyPair)
  | some kp =>
    match kp.privateKey, kp.publicKey with
    | none, _ => (fs, some .nilKeyHalf)
    | some _, none => (fs, some .nilKeyHalf)
    | some priv, some pubN =>
      if priv.validates = false then (fs, some .invalidPrivateKey)
      else
        let keyID := keyIDFromModulus pubN
        let privPath := privPemPath dir keyID
        let pubPath := pubPemPath dir keyID
        if wfail privPath then (fs, some .savePrivateFailed)
        else
          let fs1 := fsWrite fs privPath 0o600 (.privPem priv)
          if wfail pubPath then (fsRemove fs1 privPath, some .savePublicFailed)
          else (fsWrite fs1 pubPath 0o644 (.pubPem pubN), none)

/-- `Manager.DeleteKeyPair`: empty-id check (wrapping `ErrKeyLoad`),
existence check of both halves (wrapping `ErrKeyNotFound`), then the two
removals in order, a failure of either reported without restoring what was
already removed.  `rfail` is the oracle for `os.Remove` failures. -/
def DeleteKeyPairK (rfail : String → Bool) (dir keyID : String) (fs : FS) :
    FS × Option KeyToolErr :=
  if keyID = "" then (fs, some .emptyKeyID)
  else
    let privPath := privPemPath dir keyID
    let pubPath := pubPemPath dir keyID
    if fsLookup fs privPath = none then (fs, some .privateKeyNotFound)
    else if fsLookup fs pubPath = none then (fs, some .publicKeyNotFound)
    else if rfail privPath then (fs, some .removePrivateFailed)
    else
      let fs1 := fsRemove fs privPath
      if rfail pubPath then (fs1, some .removePublicFailed)
      else (fsRemove fs1 pubPath, none)

/-! ## Key-Set Publisher (`server/internal/auth/jwk.go`) -/

/-- The server's public key as the `KeyPair` interface exposes it:
`PublicKey().N` and `PublicKey().E`. -/
structure ServerPubKey where
  n : Nat
  e : Nat
deriving DecidableEq

/-- One character of the base64url alphabet. -/
def b64uChar (n : Nat) : Char :=
  if n < 26 then Char.ofNat (65 + n)
  else if n < 52 then Char.ofNat (97 + (n - 26))
  else if n < 62 then Char.ofNat (48 + (n - 52))
  else if n = 62 then '-'
  else '_'

/-- `base64.RawURLEncoding.EncodeToString`: three bytes to four characters,
shorter final group, no padding. -/
def b64uEncode : List Nat → List Char
  | [] => []
  | [b0] => [b64uChar (b0 / 4), b64uChar (b0 % 4 * 16)]
  | [b0, b1] => [b64uChar (b0 / 4), b64uChar (b0 % 4 * 16 + b1 / 16), b64uChar (b1 % 16 * 4)]
  | b0 :: b1 :: b2 :: rest =>
    b64uChar (b0 / 4) :: b64uChar (b0 % 4 * 16 + b1 / 16) ::
      b64uChar (b1 % 16 * 4 + b2 / 64) :: b64uChar (b2 % 64) :: b64uEncode rest

/-- The `JWK` struct of `jwk.go`. -/
structure JWK where
  kty : String
  use : String
  kid : String
  alg : String
  n : String
  e : String
deriving DecidableEq

/-- `convertToJWK`: constant `kty`/`use`/`alg`, the hard-coded key id
`"1"`, and the base64url renderings of modulus and exponent bytes. -/
def convertToJWK (kp : ServerPubKey) : JWK :=
  { kty := "RSA"
    use := "sig"
    kid := "1"
    alg := "RS256"
    n := String.mk (b64uEncode (natBytes kp.n))
    e := String.mk (b64uEncode (natBytes kp.e)) }

/-! ## Helper lemmas about the filesystem model -/

theorem fsLookup_fsRemove_self (fs : FS) (p : String) : fsLookup (fsRemove fs p) p = none := by
  induction fs with
  | nil => rfl
  | cons hd tl ih =>
    obtain ⟨q, f⟩ := hd
    by_cases hq : q = p
    · subst hq
      simpa [fsRemove, List.filter_cons] using ih
    · simp only [fsRemove, List.filter_cons] at ih ⊢
      simp [hq, fsLookup, ih]

theorem fsLookup_fsRemove_other (fs : FS) (p q : String) (h : ¬q = p) :
    fsLookup (fsRemove fs p) q = fsLookup fs q := by
  induction fs with
  | nil => rfl
  | cons hd tl ih =>
    obtain ⟨a, f⟩ := hd
    by_cases ha : a = p
    · subst ha
      have hne : ¬a = q := fun hh => h (hh.symm)
      simp only [fsRemove, List.filter_cons] at ih ⊢
      simp [fsLookup, hne, ih]
    · simp only [fsRemove, List.filter_cons] at ih ⊢
      by_cases hh : a = q
      · subst hh
        simp [fsLookup, ha]
      · simp [fsLookup, hh, ha, ih]

theorem fsLookup_fsWrite_self_fresh (fs : FS) (p : String) (perm : Nat) (c : PemContent)
    (h : fsLookup fs p = none) : fsLookup (fsWrite fs p perm c) p = some (perm, c) := by
  simp [fsWrite, h, fsLookup]

theorem fsLookup_fsWrite_other (fs : FS) (p q : String) (perm : Nat) (c : PemContent)
    (h : ¬q = p) : fsLookup (fsWrite fs p perm c) q = fsLookup fs q := by
  have h2 : ¬p = q := fun hh => h (hh.symm)
  cases hl : fsLookup fs p with
  | none => simp [fsWrite, hl, fsLookup, h2]
  | some f => simp [fsWrite, hl, fsLookup, h2, fsLookup_fsRemove_other fs p q h]

theorem privPemPath_ne_pubPemPath (dir keyID : String) :
    ¬privPemPath dir keyID = pubPemPath dir keyID := by
  intro h
  have h2 := congrArg String.length h
  simp [privPemPath, pubPemPath, String.length_append] at h2
  exact absurd h2 (by decide)

theorem bytesToHexChars_length (bs : List Nat) :
    (bytesToHexChars bs).length = 2 * bs.length := by
  induction bs with
  | nil => rfl
  | cons b tl ih =>
    simp only [bytesToHexChars] at ih ⊢
    simp [List.flatMap_cons, ih]
    omega

/-! ## The claims -/

/-- Claim C1 (confirmed).  Round trip: a token produced by
`Generator.GenerateToken` under key pair K, validated against K's public
key at issuance time and introspected, is active with the issued subject
and issuer `"oauth2-server"`; validated against a different key pair's
public key, or at any time at or after its expiry, or re-encoded to
declare the HMAC algorithm in its header, it is inactive; and
`validateToken` rejects every declared method outside the RSA family with
the same error for every key, i.e. before any key is consulted. -/
theorem token_round_trip (username : String) (K : RSAPrivateKey) (now : Int) (tok : Token)
    (hgen : GenerateToken (some K) username now = .ok tok) :
    (introspectOutcome tok K.modulus now).active = true
    ∧ (introspectOutcome tok K.modulus now).sub = username
    ∧ (introspectOutcome tok K.modulus now).iss = "oauth2-server"
    ∧ (∀ m : Nat, m ≠ K.modulus → (introspectOutcome tok m now).active = false)
    ∧ (∀ t : Int, tok.claims.exp ≤ t → (introspectOutcome tok K.modulus t).active = false)
    ∧ (∀ m : Nat, ∀ t : Int, (introspectOutcome { tok with alg := Alg.HS256 } m t).active = false)
    ∧ (∀ u : Token, u.alg.isRSAMethod = false → ∀ m : Nat, ∀ t : Int,
        validateTokenP u m t = .error JwtError.unverifiable) := by
  have hvalid : K.valid = true := by
    cases hK : K.valid
    · simp [GenerateToken, hK] at hgen
    · rfl
  have huser : ¬username = "" := by
    intro h
    simp [GenerateToken, hvalid, h] at hgen
  simp [GenerateToken, hvalid, huser, signRSA] at hgen
  subst hgen
  refine ⟨?_, ?_, ?_, ?_, ?_, ?_, ?_⟩
  · simp [introspectOutcome, validateTokenP, introspectToken, Alg.isRSAMethod]
  · simp [introspectOutcome, validateTokenP, introspectToken, Alg.isRSAMethod]
  · simp [introspectOutcome, validateTokenP, introspectToken, Alg.isRSAMethod]
  · intro m hm
    have hm2 : ¬K.modulus = m := fun hh => hm hh.symm
    simp [introspectOutcome, validateTokenP, introspectToken, Alg.isRSAMethod, hm2]
  · intro t ht
    simp only [Token.claims] at ht
    have hlt : ¬t < now + 3600 := by omega
    simp [introspectOutcome, validateTokenP, introspectToken, Alg.isRSAMethod, hlt]
  · intro m t
    simp [introspectOutcome, validateTokenP, introspectToken, Alg.isRSAMethod]
  · intro u hu m t
    simp [validateTokenP, hu]

/-- Witness for C1 at a concrete key, user and time. -/
theorem token_round_trip_witness :
    (introspectOutcome ⟨Alg.RS256, ⟨"oauth2-server", "sho", 1000, 1000, 4600⟩,
        ⟨5, Alg.RS256, ⟨"oauth2-server", "sho", 1000, 1000, 4600⟩⟩⟩ 5 1000).active = true
    ∧ (introspectOutcome ⟨Alg.RS256, ⟨"oauth2-server", "sho", 1000, 1000, 4600⟩,
        ⟨5, Alg.RS256, ⟨"oauth2-server", "sho", 1000, 1000, 4600⟩⟩⟩ 7 1000).active = false
    ∧ (introspectOutcome ⟨Alg.RS256, ⟨"oauth2-server", "sho", 1000, 1000, 4600⟩,
        ⟨5, Alg.RS256, ⟨"oauth2-server", "sho", 1000, 1000, 4600⟩⟩⟩ 5 4600).active = false
    ∧ (introspectOutcome ⟨Alg.HS256, ⟨"oauth2-server", "sho", 1000, 1000, 4600⟩,
        ⟨5, Alg.RS256, ⟨"oauth2-server", "sho", 1000, 1000, 4600⟩⟩⟩ 5 1000).active = false := by
  have h := token_round_trip "sho" ⟨5, true⟩ 1000
    ⟨Alg.RS256, ⟨"oauth2-server", "sho", 1000, 1000, 4600⟩,
      ⟨5, Alg.RS256, ⟨"oauth2-server", "sho", 1000, 1000, 4600⟩⟩⟩ rfl
  exact ⟨h.1, h.2.2.2.1 7 (by decide), h.2.2.2.2.1 4600 (by decide), h.2.2.2.2.2.1 5 1000⟩

/-- Claim C2 (confirmed).  For every credential pair in the store, issuance
under a valid signing key succeeds and the issued claims have subject the
client id, issuer `"oauth2-server"`, issued-at equal to not-before,
issued-at ≤ not-before ≤ expires-at, and a fixed lifetime of 3600
seconds. -/
theorem issuance_claims_for_pool (c s : String) (hmem : (c, s) ∈ DefaultUserPool)
    (K : RSAPrivateKey) (hval : K.valid = true) (now : Int) :
    ∃ tok : Token, GenerateToken (some K) c now = .ok tok
      ∧ tok.claims.sub = c
      ∧ tok.claims.iss = "oauth2-server"
      ∧ tok.claims.iat = tok.claims.nbf
      ∧ tok.claims.iat ≤ tok.claims.nbf
      ∧ tok.claims.nbf ≤ tok.claims.exp
      ∧ tok.claims.exp - tok.claims.iat = 3600 := by
  have hc : c = "sho" := by
    simp [DefaultUserPool] at hmem
    exact hmem.1
  subst hc
  refine ⟨⟨Alg.RS256, ⟨"oauth2-server", "sho", now, now, now + 3600⟩,
      signRSA K Alg.RS256 ⟨"oauth2-server", "sho", now, now, now + 3600⟩⟩,
    ?_, rfl, rfl, rfl, le_refl _, ?_, ?_⟩
  · simp [GenerateToken, hval]
  · dsimp only
    omega
  · dsimp only
    omega

/-- Witness for C2 with the stored pair and a concrete valid key. -/
theorem issuance_claims_for_pool_witness :
    ∃ tok : Token, GenerateToken (some ⟨5, true⟩) "sho" 0 = .ok tok
      ∧ tok.claims.sub = "sho"
      ∧ tok.claims.iss = "oauth2-server"
      ∧ tok.claims.iat = tok.claims.nbf
      ∧ tok.claims.iat ≤ tok.claims.nbf
      ∧ tok.claims.nbf ≤ tok.claims.exp
      ∧ tok.claims.exp - tok.claims.iat = 3600 :=
  issuance_claims_for_pool "sho" "test123" (by decide) ⟨5, true⟩ rfl 0

/-- Claim C3 (confirmed).  At the introspection endpoint every failure of
token parsing, signature verification or temporal-claim checking is a
request success: HTTP 200 with the body holding exactly the one field
`active = false`; the no-token case is a 400 with an error body, a wrong
method a 405, and no other request produces a non-200 status. -/
theorem introspection_error_reporting (decode : String → Option Token) (pubm : Nat)
    (now : Int) (r : IntroRequest) :
    (∀ e : JwtError, r.method = "POST" → ¬extractTokenFromRequest r = "" →
        validateToken decode (extractTokenFromRequest r) pubm now = .error e →
        HandleIntrospection decode pubm now r = ⟨200, .json [("active", Json.jsBool false)]⟩)
    ∧ (r.method = "POST" → extractTokenFromRequest r = "" →
        HandleIntrospection decode pubm now r =
          ⟨400, .json [("error", Json.jsStr "No token provided")]⟩)
    ∧ (¬r.method = "POST" →
        HandleIntrospection decode pubm now r = ⟨405, .text "Method not allowed"⟩)
    ∧ ((HandleIntrospection decode pubm now r).status ≠ 200 →
        ¬r.method = "POST" ∨ extractTokenFromRequest r = "") := by
  refine ⟨?_, ?_, ?_, ?_⟩
  · intro e hpost hne hval
    simp [HandleIntrospection, hpost, hne, hval, writeIntrospectionError, encodeIntrospection,
      optStr, optInt]
  · intro hpost he
    simp [HandleIntrospection, hpost, he, writeIntrospectionError, encodeErrResp, optStr]
  · intro hm
    simp [HandleIntrospection, hm]
  · intro hst
    by_cases hm : r.method = "POST"
    · by_cases he : extractTokenFromRequest r = ""
      · exact Or.inr he
      · exfalso
        apply hst
        cases hv : validateToken decode (extractTokenFromRequest r) pubm now with
        | error e => simp [HandleIntrospection, hm, he, hv, writeIntrospectionError]
        | ok p => simp [HandleIntrospection, hm, he, hv]
    · exact Or.inl hm

/-- Witness for C3: a failing validation is a 200 with `active = false`
only, a missing token a 400, a GET a 405. -/
theorem introspection_error_reporting_witness :
    HandleIntrospection (fun _ => none) 1 0 ⟨"POST", "tok", ""⟩ =
      ⟨200, .json [("active", Json.jsBool false)]⟩
    ∧ HandleIntrospection (fun _ => none) 1 0 ⟨"POST", "", ""⟩ =
      ⟨400, .json [("error", Json.jsStr "No token provided")]⟩
    ∧ HandleIntrospection (fun _ => none) 1 0 ⟨"GET", "tok", ""⟩ =
      ⟨405, .text "Method not allowed"⟩ :=
  ⟨(introspection_error_reporting (fun _ => none) 1 0 ⟨"POST", "tok", ""⟩).1 .malformed rfl
      (by decide) rfl,
    (introspection_error_reporting (fun _ => none) 1 0 ⟨"POST", "", ""⟩).2.1 rfl rfl,
    (introspection_error_reporting (fun _ => none) 1 0 ⟨"GET", "tok", ""⟩).2.2.1 (by decide)⟩

/-- Claim C6 (confirmed).  Token extraction prefers the `token` form field;
when the form field is empty the token is the Authorization header with
the Bearer tag stripped; when neither yields a token, the endpoint
responds 400. -/
theorem token_extraction_precedence (decode : String → Option Token) (pubm : Nat)
    (now : Int) (r : IntroRequest) :
    (¬r.formToken = "" → extractTokenFromRequest r = r.formToken)
    ∧ (r.formToken = "" → startsWithL r.authHeader.toList "Bearer ".toList = true →
        extractTokenFromRequest r = String.mk (r.authHeader.toList.drop 7))
    ∧ (r.formToken = "" →
        (r.authHeader = "" ∨ startsWithL r.authHeader.toList "Bearer ".toList = false) →
        extractTokenFromRequest r = "")
    ∧ (r.method = "POST" → extractTokenFromRequest r = "" →
        (HandleIntrospection decode pubm now r).status = 400) := by
  refine ⟨?_, ?_, ?_, ?_⟩
  · intro hf
    simp [extractTokenFromRequest, hf]
  · intro hf hb
    have hne : ¬r.authHeader = "" := by
      intro h0
      rw [h0] at hb
      exact absurd hb (by decide)
    have hb2 : startsWithL r.authHeader.data ['B', 'e', 'a', 'r', 'e', 'r', ' '] = true := hb
    simp [extractTokenFromRequest, hf, hne, hb2, bearerToken]
  · intro hf hcase
    cases hcase with
    | inl h0 => simp [extractTokenFromRequest, hf, h0]
    | inr hb =>
      have hb2 : startsWithL r.authHeader.data ['B', 'e', 'a', 'r', 'e', 'r', ' '] = false := hb
      simp [extractTokenFromRequest, hf, hb2]
  · intro hm he
    simp [HandleIntrospection, hm, he, writeIntrospectionError]

/-- Witness for C6 at concrete requests: form field wins over the header,
the Bearer tag is stripped, a non-Bearer header yields nothing, and an
empty extraction answers 400. -/
theorem token_extraction_precedence_witness :
    extractTokenFromRequest ⟨"POST", "ftok", "Bearer abc"⟩ = "ftok"
    ∧ extractTokenFromRequest ⟨"POST", "", "Bearer abc"⟩ = "abc"
    ∧ extractTokenFromRequest ⟨"POST", "", "Token abc"⟩ = ""
    ∧ (HandleIntrospection (fun _ => none) 1 0 ⟨"POST", "", ""⟩).status = 400 :=
  ⟨(token_extraction_precedence (fun _ => none) 1 0 ⟨"POST", "ftok", "Bearer abc"⟩).1
      (by decide),
    ((token_extraction_precedence (fun _ => none) 1 0 ⟨"POST", "", "Bearer abc"⟩).2.1 rfl
      (by decide)).trans rfl,
    (token_extraction_precedence (fun _ => none) 1 0 ⟨"POST", "", "Token abc"⟩).2.2.1 rfl
      (Or.inr (by decide)),
    (token_extraction_precedence (fun _ => none) 1 0 ⟨"POST", "", ""⟩).2.2.2 rfl rfl⟩

/-- Claim C4, counterexample.  The claim calls the no-separator error
(`MalformedCredentials`) "an error distinct from MalformedHeader"; in the
source both `return` sites yield the same value `ErrInvalidFormat`: a
decoded payload without `:` (here base64 of "nosep") and a header that is
not two space-separated tokens produce the identical error. -/
theorem basic_auth_no_separator_error_not_distinct :
    ParseBasicAuth [("user", "pass")] "Basic bm9zZXA=" = .error .invalidFormat
    ∧ ParseBasicAuth [("user", "pass")] "Basic a b c" = .error .invalidFormat :=
  ⟨by decide, by decide⟩

/-- Claim C4 as amended (corrected).  Credential validation fails with one
of FOUR distinct errors: MissingHeader when the header is absent; the
format error when the header is not exactly two space-separated tokens,
when the scheme keyword is not "Basic", or — the same error value, not a
distinct one — when the decoded payload has no `:` separator;
InvalidEncoding when the payload is not valid base64; and
InvalidCredentials when the client id is unknown or the secret mismatches;
otherwise it succeeds with the (clientID, secret) pair. -/
theorem basic_auth_error_cases (pool : List (String × String)) (h : String) :
    (h = "" → ParseBasicAuth pool h = .error .missingHeader)
    ∧ (¬h = "" → ¬(splitOnChar ' ' h.toList).length = 2 →
        ParseBasicAuth pool h = .error .invalidFormat)
    ∧ (∀ p0 p1, ¬h = "" → splitOnChar ' ' h.toList = [p0, p1] → ¬p0 = "Basic".toList →
        ParseBasicAuth pool h = .error .invalidFormat)
    ∧ (∀ p1, ¬h = "" → splitOnChar ' ' h.toList = ["Basic".toList, p1] →
        base64Decode p1 = none → ParseBasicAuth pool h = .error .invalidBase64)
    ∧ (∀ p1 d, ¬h = "" → splitOnChar ' ' h.toList = ["Basic".toList, p1] →
        base64Decode p1 = some d → splitCreds d = none →
        ParseBasicAuth pool h = .error .invalidFormat)
    ∧ (∀ p1 d u pw, ¬h = "" → splitOnChar ' ' h.toList = ["Basic".toList, p1] →
        base64Decode p1 = some d → splitCreds d = some (u, pw) →
        poolFind pool u = none → ParseBasicAuth pool h = .error .invalidCredentials)
    ∧ (∀ p1 d u pw k v, ¬h = "" → splitOnChar ' ' h.toList = ["Basic".toList, p1] →
        base64Decode p1 = some d → splitCreds d = some (u, pw) →
        poolFind pool u = some (k, v) → ¬strBytes v = pw →
        ParseBasicAuth pool h = .error .invalidCredentials)
    ∧ (∀ p1 d u pw k v, ¬h = "" → splitOnChar ' ' h.toList = ["Basic".toList, p1] →
        base64Decode p1 = some d → splitCreds d = some (u, pw) →
        poolFind pool u = some (k, v) → strBytes v = pw →
        ParseBasicAuth pool h = .ok (k, v)) := by
  refine ⟨?_, ?_, ?_, ?_, ?_, ?_, ?_, ?_⟩
  · intro h0
    simp [ParseBasicAuth, h0]
  · intro h0 hlen
    rcases hsp : splitOnChar ' ' h.toList with _ | ⟨p0, _ | ⟨p1, _ | ⟨p2, tl⟩⟩⟩ <;>
      simp only [String.toList] at hsp
    · simp [ParseBasicAuth, h0, hsp]
    · simp [ParseBasicAuth, h0, hsp]
    · exact absurd (by simp only [String.toList]; simp [hsp]) hlen
    · simp [ParseBasicAuth, h0, hsp]
  · intro p0 p1 h0 hsp hp0
    simp only [String.toList] at hsp hp0
    simp [ParseBasicAuth, h0, hsp, hp0]
  · intro p1 h0 hsp hdec
    simp only [String.toList] at hsp
    simp [ParseBasicAuth, h0, hsp, hdec]
  · intro p1 d h0 hsp hdec hcred
    simp only [String.toList] at hsp
    simp [ParseBasicAuth, h0, hsp, hdec, hcred]
  · intro p1 d u pw h0 hsp hdec hcred hfind
    simp only [String.toList] at hsp
    simp [ParseBasicAuth, h0, hsp, hdec, hcred, hfind]
  · intro p1 d u pw k v h0 hsp hdec hcred hfind hv
    simp only [String.toList] at hsp
    simp [ParseBasicAuth, h0, hsp, hdec, hcred, hfind, hv]
  · intro p1 d u pw k v h0 hsp hdec hcred hfind hv
    simp only [String.toList] at hsp
    simp [ParseBasicAuth, h0, hsp, hdec, hcred, hfind, hv]

/-- Witness for the amended C4: a missing header, an undecodable payload,
and a successful validation (base64 of "user:pass"). -/
theorem basic_auth_error_cases_witness :
    ParseBasicAuth [("user", "pass")] "" = .error .missingHeader
    ∧ ParseBasicAuth [("user", "pass")] "Basic %%%" = .error .invalidBase64
    ∧ ParseBasicAuth [("user", "pass")] "Basic dXNlcjpwYXNz" = .ok ("user", "pass") :=
  ⟨(basic_auth_error_cases [("user", "pass")] "").1 rfl,
    (basic_auth_error_cases [("user", "pass")] "Basic %%%").2.2.2.1 "%%%".toList
      (by decide) (by decide) (by decide),
    (basic_auth_error_cases [("user", "pass")] "Basic dXNlcjpwYXNz").2.2.2.2.2.2.2
      "dXNlcjpwYXNz".toList [117, 115, 101, 114, 58, 112, 97, 115, 115]
      [117, 115, 101, 114] [112, 97, 115, 115] "user" "pass"
      (by decide) (by decide) (by decide) (by decide) (by decide) (by decide)⟩

/-- Claim C5, counterexample.  An absent Authorization header (and likewise
a non-Basic scheme) is rejected by `request.ValidateAuthorization` via
`http.Error`: the 401 body is plain text, not a JSON object whose error
field is "invalid_client" as the claim states for every malformed
header. -/
theorem token_endpoint_missing_header_plaintext :
    HandleToken DefaultUserPool (some ⟨5, true⟩) 0 ⟨"POST", ""⟩ =
      ⟨401, .text "Authorization header required"⟩
    ∧ HandleToken DefaultUserPool (some ⟨5, true⟩) 0 ⟨"POST", "Bearer abc"⟩ =
      ⟨401, .text "Invalid authorization scheme: Bearer abc"⟩ :=
  ⟨by decide, by decide⟩

/-- Claim C5 as amended (corrected).  Every malformed Authorization header
at the token endpoint yields HTTP 401 and no token; the absent-header and
wrong-scheme cases carry a plain-text body written by `http.Error`, while
the failures of `ParseBasicAuth` (bad base64, missing separator, wrong
secret, unknown client, misformatted Basic payloads) carry the JSON error
body whose error field is "invalid_client". -/
theorem token_endpoint_unauthorized_cases (pool : List (String × String))
    (key : Option RSAPrivateKey) (now : Int) (r : TokenRequest) (hm : r.method = "POST") :
    (r.authHeader = "" →
        HandleToken pool key now r = ⟨401, .text "Authorization header required"⟩)
    ∧ (¬r.authHeader = "" → startsWithL r.authHeader.toList "Basic ".toList = false →
        HandleToken pool key now r =
          ⟨401, .text ("Invalid authorization scheme: " ++ r.authHeader)⟩)
    ∧ (∀ e : AuthErr, startsWithL r.authHeader.toList "Basic ".toList = true →
        ParseBasicAuth pool r.authHeader = .error e →
        HandleToken pool key now r = ⟨401, .errJson (GetErrorResponse e)⟩
        ∧ (GetErrorResponse e).error = "invalid_client")
    ∧ (∀ e : AuthErr, ParseBasicAuth pool r.authHeader = .error e →
        ∀ t tt n, ¬(HandleToken pool key now r).body = TokBody.tokJson t tt n) := by
  have hb0 : ∀ hh : r.authHeader = "",
      startsWithL r.authHeader.toList "Basic ".toList = false := by
    intro hh
    rw [hh]
    decide
  refine ⟨?_, ?_, ?_, ?_⟩
  · intro h0
    simp [HandleToken, hm, h0]
  · intro h0 hb
    simp only [String.toList] at hb
    simp [HandleToken, hm, h0, hb]
  · intro e hb hp
    have h0 : ¬r.authHeader = "" := by
      intro hh
      rw [hb0 hh] at hb
      exact Bool.false_ne_true hb
    simp only [String.toList] at hb
    refine ⟨by simp [HandleToken, hm, h0, hb, hp], ?_⟩
    cases e <;> rfl
  · intro e hp t tt n
    by_cases h0 : r.authHeader = ""
    · simp [HandleToken, hm, h0]
    · cases hb : startsWithL r.authHeader.toList "Basic ".toList with
      | false =>
        simp only [String.toList] at hb
        simp [HandleToken, hm, h0, hb]
      | true =>
        simp only [String.toList] at hb
        simp [HandleToken, hm, h0, hb, hp]

/-- Witness for the amended C5: a wrong secret (base64 of "sho:WRONG")
yields the 401 JSON `invalid_client` body. -/
theorem token_endpoint_unauthorized_cases_witness :
    HandleToken DefaultUserPool (some ⟨5, true⟩) 0 ⟨"POST", "Basic c2hvOldST05H"⟩ =
      ⟨401, .errJson ⟨"invalid_client", "Invalid username or password"⟩⟩ := by
  have h := (token_endpoint_unauthorized_cases DefaultUserPool (some ⟨5, true⟩) 0
    ⟨"POST", "Basic c2hvOldST05H"⟩ rfl).2.2.1 AuthErr.invalidCredentials (by decide) (by decide)
  exact h.1

/-- Claim C7 (confirmed).  `GenerateKeyPair(bits)` fails with
`InvalidKeySize` exactly when `bits < 2048` (whatever the generator oracle
does), and on success the `KeyID` is the hex rendering of the first eight
bytes of the public modulus's byte representation. -/
theorem generate_key_pair_size_check (bits : Nat) (rngOk : Bool) (gen : RSAPrivKeyK) :
    (GenerateKeyPairK bits rngOk gen = .error .invalidKeySize ↔ bits < 2048)
    ∧ (∀ kp : KeyPairK, GenerateKeyPairK bits rngOk gen = .ok kp →
        kp.keyID = String.mk (bytesToHexChars ((natBytes gen.n).take 8))
        ∧ kp.privateKey = some gen ∧ kp.publicKey = some gen.n)
    ∧ KeyToolErr.unwrapsTo .invalidKeySize = some KeySentinel.invalidKeySize := by
  refine ⟨⟨?_, ?_⟩, ?_, rfl⟩
  · intro h
    by_contra hlt
    cases hr : rngOk <;> simp [GenerateKeyPairK, hlt, hr] at h
  · intro h
    simp [GenerateKeyPairK, h]
  · intro kp h
    by_cases hlt : bits < 2048
    · simp [GenerateKeyPairK, hlt] at h
    · cases hr : rngOk
      · simp [GenerateKeyPairK, hlt, hr] at h
      · simp [GenerateKeyPairK, hlt, hr] at h
        rw [← h]
        exact ⟨rfl, rfl, rfl⟩

/-- Witness for C7 at the claim's boundary: 1024 fails with InvalidKeySize,
2048 and 4096 succeed, and the derived key id is the hex of the modulus
bytes. -/
theorem generate_key_pair_size_check_witness :
    GenerateKeyPairK 1024 true ⟨0xdeadbeefcafebabe, true⟩ = .error .invalidKeySize
    ∧ GenerateKeyPairK 2048 true ⟨0xdeadbeefcafebabe, true⟩ =
        .ok ⟨some ⟨0xdeadbeefcafebabe, true⟩, some 0xdeadbeefcafebabe, "deadbeefcafebabe"⟩
    ∧ GenerateKeyPairK 4096 true ⟨0xdeadbeefcafebabe, true⟩ =
        .ok ⟨some ⟨0xdeadbeefcafebabe, true⟩, some 0xdeadbeefcafebabe, "deadbeefcafebabe"⟩ :=
  ⟨(generate_key_pair_size_check 1024 true ⟨0xdeadbeefcafebabe, true⟩).1.mpr (by decide),
    by decide, by decide⟩

/-- Claim C8 (confirmed).  Persisting fails on a nil pair, a nil half, or a
private key failing its consistency check; otherwise the private file is
written first with owner-only permission (0600) and the public file second
with world-readable permission (0644); a failing private write leaves the
store untouched, and a failing public write removes the already-written
private file, so no half-committed pair remains. -/
theorem save_key_pair_atomicity (wfail : String → Bool) (dir : String) (fs : FS) :
    SaveKeyPairK wfail dir none fs = (fs, some .nilKeyPair)
    ∧ (∀ kp : KeyPairK, kp.privateKey = none ∨ kp.publicKey = none →
        SaveKeyPairK wfail dir (some kp) fs = (fs, some .nilKeyHalf))
    ∧ (∀ kp : KeyPairK, ∀ priv : RSAPrivKeyK, ∀ pubN : Nat,
        kp.privateKey = some priv → kp.publicKey = some pubN → priv.validates = false →
        SaveKeyPairK wfail dir (some kp) fs = (fs, some .invalidPrivateKey))
    ∧ (∀ kp : KeyPairK, ∀ priv : RSAPrivKeyK, ∀ pubN : Nat,
        kp.privateKey = some priv → kp.publicKey = some pubN → priv.validates = true →
        wfail (privPemPath dir (keyIDFromModulus pubN)) = true →
        SaveKeyPairK wfail dir (some kp) fs = (fs, some .savePrivateFailed))
    ∧ (∀ kp : KeyPairK, ∀ priv : RSAPrivKeyK, ∀ pubN : Nat,
        kp.privateKey = some priv → kp.publicKey = some pubN → priv.validates = true →
        wfail (privPemPath dir (keyIDFromModulus pubN)) = false →
        wfail (pubPemPath dir (keyIDFromModulus pubN)) = false →
        (SaveKeyPairK wfail dir (some kp) fs).2 = none
        ∧ (fsLookup fs (privPemPath dir (keyIDFromModulus pubN)) = none →
            fsLookup (SaveKeyPairK wfail dir (some kp) fs).1
              (privPemPath dir (keyIDFromModulus pubN)) = some (0o600, .privPem priv))
        ∧ (fsLookup fs (pubPemPath dir (keyIDFromModulus pubN)) = none →
            fsLookup (SaveKeyPairK wfail dir (some kp) fs).1
              (pubPemPath dir (keyIDFromModulus pubN)) = some (0o644, .pubPem pubN)))
    ∧ (∀ kp : KeyPairK, ∀ priv : RSAPrivKeyK, ∀ pubN : Nat,
        kp.privateKey = some priv → kp.publicKey = some pubN → priv.validates = true →
        wfail (privPemPath dir (keyIDFromModulus pubN)) = false →
        wfail (pubPemPath dir (keyIDFromModulus pubN)) = true →
        (SaveKeyPairK wfail dir (some kp) fs).2 = some .savePublicFailed
        ∧ fsLookup (SaveKeyPairK wfail dir (some kp) fs).1
            (privPemPath dir (keyIDFromModulus pubN)) = none
        ∧ fsLookup (SaveKeyPairK wfail dir (some kp) fs).1
            (pubPemPath dir (keyIDFromModulus pubN)) =
          fsLookup fs (pubPemPath dir (keyIDFromModulus pubN))) := by
  refine ⟨rfl, ?_, ?_, ?_, ?_, ?_⟩
  · intro kp hcase
    cases hcase with
    | inl h1 => simp [SaveKeyPairK, h1]
    | inr h2 =>
      cases h1 : kp.privateKey with
      | none => simp [SaveKeyPairK, h1]
      | some priv => simp [SaveKeyPairK, h1, h2]
  · intro kp priv pubN h1 h2 hval
    simp [SaveKeyPairK, h1, h2, hval]
  · intro kp priv pubN h1 h2 hval hw1
    simp [SaveKeyPairK, h1, h2, hval, hw1]
  · intro kp priv pubN h1 h2 hval hw1 hw2
    have hres : SaveKeyPairK wfail dir (some kp) fs =
        (fsWrite (fsWrite fs (privPemPath dir (keyIDFromModulus pubN)) 0o600 (.privPem priv))
          (pubPemPath dir (keyIDFromModulus pubN)) 0o644 (.pubPem pubN), none) := by
      simp [SaveKeyPairK, h1, h2, hval, hw1, hw2]
    rw [hres]
    refine ⟨rfl, ?_, ?_⟩
    · intro hfresh
      rw [fsLookup_fsWrite_other _ _ _ _ _ (privPemPath_ne_pubPemPath dir _)]
      exact fsLookup_fsWrite_self_fresh fs _ _ _ hfresh
    · intro hfresh
      refine fsLookup_fsWrite_self_fresh _ _ _ _ ?_
      rw [fsLookup_fsWrite_other _ _ _ _ _
        (fun hh => privPemPath_ne_pubPemPath dir (keyIDFromModulus pubN) hh.symm)]
      exact hfresh
  · intro kp priv pubN h1 h2 hval hw1 hw2
    have hres : SaveKeyPairK wfail dir (some kp) fs =
        (fsRemove (fsWrite fs (privPemPath dir (keyIDFromModulus pubN)) 0o600 (.privPem priv))
          (privPemPath dir (keyIDFromModulus pubN)), some .savePublicFailed) := by
      simp [SaveKeyPairK, h1, h2, hval, hw1, hw2]
    rw [hres]
    refine ⟨rfl, fsLookup_fsRemove_self _ _, ?_⟩
    rw [fsLookup_fsRemove_other _ _ _
      (fun hh => privPemPath_ne_pubPemPath dir (keyIDFromModulus pubN) hh.symm)]
    rw [fsLookup_fsWrite_other _ _ _ _ _
      (fun hh => privPemPath_ne_pubPemPath dir (keyIDFromModulus pubN) hh.symm)]

/-- Witness for C8: a nil pair is refused; with a public write failure on
an empty store the compensation leaves no private file behind. -/
theorem save_key_pair_atomicity_witness :
    SaveKeyPairK (fun _ => false) "keys" none [] = ([], some .nilKeyPair)
    ∧ (SaveKeyPairK (fun p => p == pubPemPath "keys" "deadbeefcafebabe") "keys"
        (some ⟨some ⟨0xdeadbeefcafebabe, true⟩, some 0xdeadbeefcafebabe, "deadbeefcafebabe"⟩)
        []).2 = some .savePublicFailed
    ∧ fsLookup (SaveKeyPairK (fun p => p == pubPemPath "keys" "deadbeefcafebabe") "keys"
        (some ⟨some ⟨0xdeadbeefcafebabe, true⟩, some 0xdeadbeefcafebabe, "deadbeefcafebabe"⟩)
        []).1 (privPemPath "keys" (keyIDFromModulus 0xdeadbeefcafebabe)) = none := by
  have hmain := save_key_pair_atomicity
    (fun p => p == pubPemPath "keys" "deadbeefcafebabe") "keys" []
  have hcomp := hmain.2.2.2.2.2
    ⟨some ⟨0xdeadbeefcafebabe, true⟩, some 0xdeadbeefcafebabe, "deadbeefcafebabe"⟩
    ⟨0xdeadbeefcafebabe, true⟩ 0xdeadbeefcafebabe rfl rfl rfl (by decide) (by decide)
  exact ⟨(save_key_pair_atomicity (fun _ => false) "keys" []).1, hcomp.1, hcomp.2.1⟩

/-- Claim C9, counterexample.  `DeleteKeyPair("")` returns
`fmt.Errorf("%w: key ID cannot be empty", ErrKeyLoad)` — an error wrapping
the KeyLoad sentinel, not InvalidPath as the claim states. -/
theorem delete_empty_id_wraps_keyload :
    DeleteKeyPairK (fun _ => false) "keys" "" [] = ([], some .emptyKeyID)
    ∧ KeyToolErr.unwrapsTo .emptyKeyID = some KeySentinel.keyLoad
    ∧ ¬KeyToolErr.unwrapsTo .emptyKeyID = some KeySentinel.invalidPath :=
  ⟨by decide, rfl, by decide⟩

/-- Claim C9 as amended (corrected).  `Delete(existingID)` removes both
files so neither remains; a missing half fails wrapping KeyNotFound and
leaves the store unchanged; `Delete("")` fails with an error wrapping the
KeyLoad sentinel (not InvalidPath) and leaves the store unchanged; and a
failure removing the public half is reported without restoring the private
half already removed. -/
theorem delete_key_pair_cases (rfail : String → Bool) (dir keyID : String) (fs : FS) :
    (keyID = "" →
        DeleteKeyPairK rfail dir keyID fs = (fs, some .emptyKeyID)
        ∧ KeyToolErr.unwrapsTo .emptyKeyID = some KeySentinel.keyLoad)
    ∧ (¬keyID = "" → fsLookup fs (privPemPath dir keyID) = none →
        DeleteKeyPairK rfail dir keyID fs = (fs, some .privateKeyNotFound)
        ∧ KeyToolErr.unwrapsTo .privateKeyNotFound = some KeySentinel.keyNotFound)
    ∧ (¬keyID = "" → ¬fsLookup fs (privPemPath dir keyID) = none →
        fsLookup fs (pubPemPath dir keyID) = none →
        DeleteKeyPairK rfail dir keyID fs = (fs, some .publicKeyNotFound)
        ∧ KeyToolErr.unwrapsTo .publicKeyNotFound = some KeySentinel.keyNotFound)
    ∧ (¬keyID = "" → ¬fsLookup fs (privPemPath dir keyID) = none →
        ¬fsLookup fs (pubPemPath dir keyID) = none →
        rfail (privPemPath dir keyID) = false → rfail (pubPemPath dir keyID) = false →
        (DeleteKeyPairK rfail dir keyID fs).2 = none
        ∧ fsLookup (DeleteKeyPairK rfail dir keyID fs).1 (privPemPath dir keyID) = none
        ∧ fsLookup (DeleteKeyPairK rfail dir keyID fs).1 (pubPemPath dir keyID) = none)
    ∧ (¬keyID = "" → ¬fsLookup fs (privPemPath dir keyID) = none →
        ¬fsLookup fs (pubPemPath dir keyID) = none →
        rfail (privPemPath dir keyID) = false → rfail (pubPemPath dir keyID) = true →
        (DeleteKeyPairK rfail dir keyID fs).2 = some .removePublicFailed
        ∧ fsLookup (DeleteKeyPairK rfail dir keyID fs).1 (privPemPath dir keyID) = none
        ∧ fsLookup (DeleteKeyPairK rfail dir keyID fs).1 (pubPemPath dir keyID) =
            fsLookup fs (pubPemPath dir keyID)) := by
  refine ⟨?_, ?_, ?_, ?_, ?_⟩
  · intro h0
    exact ⟨by simp [DeleteKeyPairK, h0], rfl⟩
  · intro h0 hpr
    exact ⟨by simp [DeleteKeyPairK, h0, hpr], rfl⟩
  · intro h0 hpr hpub
    exact ⟨by simp [DeleteKeyPairK, h0, hpr, hpub], rfl⟩
  · intro h0 hpr hpub hr1 hr2
    have hres : DeleteKeyPairK rfail dir keyID fs =
        (fsRemove (fsRemove fs (privPemPath dir keyID)) (pubPemPath dir keyID), none) := by
      simp [DeleteKeyPairK, h0, hpr, hpub, hr1, hr2]
    rw [hres]
    refine ⟨rfl, ?_, fsLookup_fsRemove_self _ _⟩
    rw [fsLookup_fsRemove_other _ _ _ (privPemPath_ne_pubPemPath dir keyID)]
    exact fsLookup_fsRemove_self _ _
  · intro h0 hpr hpub hr1 hr2
    have hres : DeleteKeyPairK rfail dir keyID fs =
        (fsRemove fs (privPemPath dir keyID), some .removePublicFailed) := by
      simp [DeleteKeyPairK, h0, hpr, hpub, hr1, hr2]
    rw [hres]
    refine ⟨rfl, fsLookup_fsRemove_self _ _, ?_⟩
    exact fsLookup_fsRemove_other _ _ _
      (fun hh => privPemPath_ne_pubPemPath dir keyID hh.symm)

/-- Witness for the amended C9: deleting an existing pair leaves neither
file; deleting a missing id fails wrapping KeyNotFound with the store
unchanged. -/
theorem delete_key_pair_cases_witness :
    (DeleteKeyPairK (fun _ => false) "keys" "deadbeefcafebabe"
        [(privPemPath "keys" "deadbeefcafebabe", (0o600, .privPem ⟨0xdeadbeefcafebabe, true⟩)),
          (pubPemPath "keys" "deadbeefcafebabe", (0o644, .pubPem 0xdeadbeefcafebabe))]).2 = none
    ∧ fsLookup (DeleteKeyPairK (fun _ => false) "keys" "deadbeefcafebabe"
        [(privPemPath "keys" "deadbeefcafebabe", (0o600, .privPem ⟨0xdeadbeefcafebabe, true⟩)),
          (pubPemPath "keys" "deadbeefcafebabe", (0o644, .pubPem 0xdeadbeefcafebabe))]).1
        (privPemPath "keys" "deadbeefcafebabe") = none
    ∧ DeleteKeyPairK (fun _ => false) "keys" "missing" [] = ([], some .privateKeyNotFound) := by
  have h := (delete_key_pair_cases (fun _ => false) "keys" "deadbeefcafebabe"
    [(privPemPath "keys" "deadbeefcafebabe", (0o600, .privPem ⟨0xdeadbeefcafebabe, true⟩)),
      (pubPemPath "keys" "deadbeefcafebabe", (0o644, .pubPem 0xdeadbeefcafebabe))]).2.2.2.1
    (by decide) (by decide) (by decide) rfl rfl
  have h2 := (delete_key_pair_cases (fun _ => false) "keys" "missing" []).2.1
    (by decide) rfl
  exact ⟨h.1, h.2.1, h2.1⟩

/-- Claim C10 (confirmed).  The JWKS entry rendered by `convertToJWK`
carries the constant key id "1" for every key pair; and the
modulus-derived key id of the lifecycle operations, being a hex string of
even length, can never equal "1" — the claim's "measure-zero" exception is
in fact impossible, which only strengthens the stated invariant. -/
theorem jwks_kid_constant_one :
    (∀ kp : ServerPubKey, (convertToJWK kp).kid = "1")
    ∧ (∀ n : Nat, ¬keyIDFromModulus n = "1") := by
  constructor
  · intro kp
    rfl
  · intro n h
    have hdata : bytesToHexChars ((natBytes n).take 8) = ['1'] := by
      have h2 := congrArg String.data h
      simpa [keyIDFromModulus] using h2
    have hlen := bytesToHexChars_length ((natBytes n).take 8)
    rw [hdata] at hlen
    simp at hlen
    omega

/-- Witness for C10 at a concrete key. -/
theorem jwks_kid_constant_one_witness :
    (convertToJWK ⟨0xdeadbeefcafebabe, 65537⟩).kid = "1"
    ∧ ¬keyIDFromModulus 0xdeadbeefcafebabe = "1" :=
  ⟨jwks_kid_constant_one.1 ⟨0xdeadbeefcafebabe, 65537⟩,
    jwks_kid_constant_one.2 0xdeadbeefcafebabe⟩

end AuthServer
